import Mathlib

/-!
Shallow embedding of the CDWeave trace-store and line-correlation engine
(`src/vscode-extension/src/extension.ts`) together with proofs about the
spec's claims on it.

Modelling conventions:
* JavaScript strings are modelled as `List Char` (`Str`); all list-level
  string operations (`take`, `drop`, `++`, splitting) mirror the JS
  `slice`/`split` semantics used by the source.
* JS `null`/`undefined` are both modelled as `Option.none`; a field the
  source leaves possibly-`undefined` is an `Option` here as well.
* JS truthiness on `string | null | undefined` (`if (!x)`) is captured by
  `jsTruthy` (`none` and the empty string are falsy).
* Arithmetic on a possibly-`null` number (the source's non-null
  assertions `x!` compile to plain JS arithmetic, where `null` coerces
  to `0`) is modelled by `jsInt`, which maps `none` to `0`.
* Numeric fields (`timestamp_start`, line numbers, durations) are
  modelled as `Int`; none of the claims hinge on non-integer values.
* The host editor (tree views, decorations, hovers) is, per the spec, a
  rendering sink: projections are pure functions computing the lists of
  items/ranges handed to it.
-/

namespace CdWeave

/-- JS strings, modelled as lists of UTF-16-ish characters. -/
abbrev Str := List Char

/-- Arbitrary JSON-like values (`unknown` payloads: `inputs`, `output`). -/
inductive Json where
  | null : Json
  | bool (b : Bool) : Json
  | num (n : Int) : Json
  | str (s : Str) : Json
  | arr (xs : List Json) : Json
  | obj (fields : List (Str × Json)) : Json

/-- The `error` field: `{type, message, traceback}` or a legacy plain string. -/
inductive TraceError where
  | structured (type message traceback : Str) : TraceError
  | plain (s : Str) : TraceError

/-- One raw JSON log line, after `JSON.parse`, restricted to the keys
`normaliseTrace` reads. A `none` models an absent (or `null`) key. -/
structure RawTrace where
  call_id : Option Str
  function : Option Str
  op_name : Option Str
  wandb_url : Option Str
  source_file : Option Str
  source_line_start : Option Int
  source_line_end : Option Int
  timestamp_start : Option Int
  duration_s : Option Int
  inputs : Option Json
  output : Option Json
  error : Option TraceError
  git_repo_root : Option Str
  git_commit : Option Str
  git_dirty : Option Bool
  git_snapshot_sha : Option Str

/-- `TraceRecord` (extension.ts:10-27). `call_id` and `timestamp_start`
stay `Option` because `normaliseTrace` applies no default to them: an
absent raw key passes through as `undefined`. -/
structure TraceRecord where
  call_id : Option Str
  function : Str
  op_name : Option Str
  wandb_url : Option Str
  source_file : Option Str
  source_line_start : Option Int
  source_line_end : Option Int
  timestamp_start : Option Int
  duration_s : Int
  inputs : Json
  output : Json
  error : Option TraceError
  git_repo_root : Option Str
  git_commit : Option Str
  git_dirty : Bool
  git_snapshot_sha : Option Str

/-- JS truthiness of a `string | null | undefined` value:
`null`, `undefined` and `""` are falsy. -/
def jsTruthy : Option Str → Bool
  | none => false
  | some s => !s.isEmpty

/-- JS number coercion of a possibly-`null` number (`Number(null) = 0`),
as produced when the source subtracts from a `null` field through a
compile-time-only `!` assertion. -/
def jsInt (o : Option Int) : Int := o.getD 0

/-- JS `String.prototype.split` with a one-character separator.
Always returns at least one (possibly empty) segment. -/
def jsSplit (sep : Char) : Str → List Str
  | [] => [[]]
  | c :: cs =>
    let rest := jsSplit sep cs
    if c == sep then [] :: rest
    else
      match rest with
      | [] => [[c]]
      | r :: rs => (c :: r) :: rs

/-- Function-name derivation from `op_name` (extension.ts:56-59):
`opName.split('/').pop()?.split(':')[0] ?? opName`. -/
def deriveOpFunction (opName : Str) : Str :=
  match (jsSplit '/' opName).getLast? with
  | some seg =>
    match jsSplit ':' seg with
    | h :: _ => h
    | [] => seg
  | none => opName

/-- `normaliseTrace` (extension.ts:54-78). The `function` field logic:
`let fnName = raw.function ?? null; if (!fnName && raw.op_name) fnName =
derive(raw.op_name); return { function: fnName ?? '(unknown)', ... }`.
Note the truthiness test on `fnName` (empty string falsy) against the
nullish test in `fnName ?? '(unknown)'` (empty string kept). -/
def normaliseTrace (raw : RawTrace) : TraceRecord :=
  let fnName : Option Str :=
    if !(jsTruthy raw.function) && jsTruthy raw.op_name then
      some (deriveOpFunction (raw.op_name.getD []))
    else raw.function
  { call_id := raw.call_id
    function := fnName.getD "(unknown)".data
    op_name := raw.op_name
    wandb_url := raw.wandb_url
    source_file := raw.source_file
    source_line_start := raw.source_line_start
    source_line_end := raw.source_line_end
    timestamp_start := raw.timestamp_start
    duration_s := raw.duration_s.getD 0
    inputs := raw.inputs.getD (Json.obj [])
    output := raw.output.getD Json.null
    error := raw.error
    git_repo_root := raw.git_repo_root
    git_commit := raw.git_commit
    git_dirty := raw.git_dirty.getD false
    git_snapshot_sha := raw.git_snapshot_sha }

/-- `parseRunLabel` (extension.ts:42-52): split the stem on `'_'`; when
the first segment has length 8 and the second length 6, format
`YYYY-MM-DD HH:MM:SS` from character slices; otherwise return the stem
verbatim. The source checks only the segment lengths, not that the
characters are digits. -/
def parseRunLabel (stem : Str) : Str :=
  match jsSplit '_' stem with
  | date :: timePart :: _ =>
    if date.length == 8 && timePart.length == 6 then
      date.take 4 ++ '-' :: (date.drop 4).take 2 ++ '-' :: date.drop 6
        ++ ' ' :: timePart.take 2 ++ ':' :: (timePart.drop 2).take 2
        ++ ':' :: timePart.drop 4
    else stem
  | _ => stem

/-- The hover payload cap (extension.ts:528 and 536):
`s.length > 1000 ? s.slice(0, 1000) + '...' : s`, applied to the
serialized inputs text and to the serialized output text. -/
def capText (s : Str) : Str :=
  if s.length > 1000 then s.take 1000 ++ "...".data else s

/-- The line-correlation predicate, used verbatim by both the hover
provider (extension.ts:507-513) and the cursor-selection handler
(extension.ts:752-758): the record's `source_file` equals the queried
path, both line bounds are non-null, and the queried 0-based line lies
in `[max(0, start - 2), end - 1]`. -/
def matchesLine (t : TraceRecord) (filePath : Str) (cursorLine : Int) : Bool :=
  (t.source_file == some filePath) &&
  t.source_line_start.isSome &&
  t.source_line_end.isSome &&
  decide (cursorLine ≥ max 0 (jsInt t.source_line_start - 2)) &&
  decide (cursorLine ≤ jsInt t.source_line_end - 1)

/-- One physical line of a log file, as seen by `loadTracesFromFile`:
blank after trimming, malformed JSON (the `catch` arm), or a parsed
JSON object. -/
inductive LogLine where
  | blank : LogLine
  | malformed : LogLine
  | parsed (raw : RawTrace) : LogLine

/-- The records produced by the parse loop (extension.ts:85-89), in
file order: blank and malformed lines contribute nothing, every parsed
line is normalised and kept. -/
def parseLines (lines : List LogLine) : List TraceRecord :=
  lines.filterMap fun l =>
    match l with
    | .parsed raw => some (normaliseTrace raw)
    | _ => none

/-- The sort key of extension.ts:90: `a.timestamp_start || 0` (a missing
or zero timestamp both compare as `0`; the record itself is untouched). -/
def sortKey (t : TraceRecord) : Int := t.timestamp_start.getD 0

/-- Insert `x` into `l` keeping earlier-inserted equal keys in front:
together with `sortByKey` this is the unique stable sort, which is what
ES2019 `Array.prototype.sort` guarantees for extension.ts:90. -/
def insertSorted (key : α → Int) (x : α) : List α → List α
  | [] => [x]
  | y :: ys => if key x ≤ key y then x :: y :: ys else y :: insertSorted key x ys

/-- Stable sort by an `Int` key (insertion sort), modelling the stable
`Array.prototype.sort` call of extension.ts:90. -/
def sortByKey (key : α → Int) : List α → List α
  | [] => []
  | x :: xs => insertSorted key x (sortByKey key xs)

/-- `loadTracesFromFile` (extension.ts:80-92). `none` models a missing
file (`!fs.existsSync`) or a failing read (the `catch` around
`readFileSync`); both return the empty sequence. Otherwise each line is
parsed or skipped, and the result is stably sorted by
`timestamp_start || 0`. -/
def loadTracesFromFile (file : Option (List LogLine)) : List TraceRecord :=
  match file with
  | none => []
  | some lines => sortByKey sortKey (parseLines lines)

/-- `TraceStore` (extension.ts:29-36). `runTraces` is the `Map`,
modelled as a lookup function. -/
structure TraceStore where
  activeRunId : Option Str
  runTraces : Str → Option (List TraceRecord)
  selectedCallId : Option Str
  focusedFn : Option Str
  suppressCursorFilter : Bool
  highlightActive : Bool

/-- The hover provider's match list (extension.ts:501-513): nothing
when `activeRunId` is falsy, else the active run's records filtered by
`matchesLine`. -/
def hoverMatches (store : TraceStore) (filePath : Str) (cursorLine : Int) :
    List TraceRecord :=
  if !(jsTruthy store.activeRunId) then []
  else
    ((store.runTraces (store.activeRunId.getD [])).getD []).filter
      fun t => matchesLine t filePath cursorLine

/-- The cursor-selection handler's lookup (extension.ts:752-758):
`traces.find(...)` with the same predicate as the hover provider. -/
def cursorFind (traces : List TraceRecord) (filePath : Str) (cursorLine : Int) :
    Option TraceRecord :=
  traces.find? fun t => matchesLine t filePath cursorLine

/-- `AllTracesProvider.getChildren` (extension.ts:390-400), as the list
of records it renders: empty when `activeRunId` is falsy, else the
active run's cached records, filtered to `focusedFn` when that is
truthy. -/
def allTracesChildren (store : TraceStore) : List TraceRecord :=
  if !(jsTruthy store.activeRunId) then []
  else
    let traces := (store.runTraces (store.activeRunId.getD [])).getD []
    if jsTruthy store.focusedFn then
      traces.filter fun t => t.function == store.focusedFn.getD []
    else traces

/-- A decoration line range `(startLine, endLine)`; the source always
passes character column 0 on both ends. -/
abbrev DecRange := Int × Int

/-- The gutter-marker accumulation of extension.ts:443-451: one range
per distinct function name, anchored at the first occurrence's
`max(0, source_line_start! - 2)`. -/
def gutterRangesAux (seen : List Str) : List TraceRecord → List DecRange
  | [] => []
  | t :: ts =>
    if seen.contains t.function then gutterRangesAux seen ts
    else
      let decoratorLine := max 0 (jsInt t.source_line_start - 2)
      (decoratorLine, decoratorLine) :: gutterRangesAux (t.function :: seen) ts

/-- `DecorationManager.applyToEditor` (extension.ts:431-468), as the
pair `(highlight ranges, gutter ranges)` handed to the rendering sink.
Note the file filter checks only `source_line_start !== null`; the end
bound is then used through a `!` assertion, so a `null` end coerces to
`0` in the `- 1` arithmetic (`jsInt`). -/
def applyToEditor (store : TraceStore) (filePath : Str) :
    List DecRange × List DecRange :=
  if !(jsTruthy store.activeRunId) || !store.highlightActive then ([], [])
  else
    let allTraces := (store.runTraces (store.activeRunId.getD [])).getD []
    let fileTraces := allTraces.filter fun t =>
      (t.source_file == some filePath) && t.source_line_start.isSome
    let gutterRanges := gutterRangesAux [] fileTraces
    let highlightTraces :=
      if jsTruthy store.focusedFn then
        fileTraces.filter fun t => t.function == store.focusedFn.getD []
      else if jsTruthy store.selectedCallId then
        let selected := fileTraces.filter fun t => t.call_id == store.selectedCallId
        if selected.length > 0 then selected else fileTraces
      else fileTraces
    let highlightRanges := highlightTraces.map fun t =>
      (max 0 (jsInt t.source_line_start - 2), jsInt t.source_line_end - 1)
    (highlightRanges, gutterRanges)

/-- Decoration state of one visible editor, as last handed to the sink. -/
structure EditorDecs where
  editorId : Str
  highlights : List DecRange
  gutters : List DecRange

/-- `DecorationManager.clearAll` (extension.ts:477-482): every visible
editor's decorations are set to empty lists. -/
def clearAllDecorations (decs : List EditorDecs) : List EditorDecs :=
  decs.map fun e => { e with highlights := [], gutters := [] }

/-- The store mutations of the `cdweave.selectTrace` handler
(extension.ts:666-681): set the active run, selected call, focused
function, the one-shot suppress flag and the highlight gate; then, when
a runs directory exists (`disk = some loaded`, where `loaded` models
`loadTracesFromFile` on the run's file) and the run is not yet cached,
insert the loaded records. -/
def selectTrace (store : TraceStore) (runId : Str) (tr : TraceRecord)
    (disk : Option (List TraceRecord)) : TraceStore :=
  { store with
    activeRunId := some runId
    selectedCallId := tr.call_id
    focusedFn := some tr.function
    suppressCursorFilter := true
    highlightActive := true
    runTraces :=
      match disk, store.runTraces runId with
      | some loaded, none =>
        fun r => if r == runId then some loaded else store.runTraces r
      | _, _ => store.runTraces }

/-- Strip a trailing `.jsonl` (the `replace(/\.jsonl$/, '')` of
extension.ts:211 and 243). -/
def stripJsonl (f : Str) : Str :=
  if ".jsonl".data.isSuffixOf f then f.take (f.length - 6) else f

/-- Lexicographic comparison of JS strings (the default
`Array.prototype.sort` comparison). -/
def strLtB : Str → Str → Bool
  | [], [] => false
  | [], _ :: _ => true
  | _ :: _, [] => false
  | a :: as, b :: bs => if a == b then strLtB as bs else decide (a < b)

/-- Ascending default JS sort order as a Boolean `≤`. -/
def strLeB (a b : Str) : Bool := !strLtB b a

/-- Insertion step for the ascending string sort. -/
def insertStr (x : Str) : List Str → List Str
  | [] => [x]
  | y :: ys => if strLeB x y then x :: y :: ys else y :: insertStr x ys

/-- Sort a list of strings ascending (default JS `sort()`), via the
same insertion scheme as `sortByKey`. -/
def sortStrings : List Str → List Str
  | [] => []
  | x :: xs => insertStr x (sortStrings xs)

/-- `TraceTreeProvider.refresh` (extension.ts:202-216). `listing` is the
runs-directory read: `none` when there is no runs directory or
`readdirSync` throws; otherwise the directory entries. The auto-select
policy: when some `.jsonl` file exists and `activeRunId` is strictly
`null`, the lexicographically greatest stem becomes active. -/
def refreshTree (store : TraceStore) (listing : Option (List Str)) : TraceStore :=
  match listing with
  | none => store
  | some entries =>
    match (sortStrings (entries.filter fun f => ".jsonl".data.isSuffixOf f)).reverse,
        store.activeRunId with
    | f :: _, none => { store with activeRunId := some (stripJsonl f) }
    | _, _ => store

/-- The `watcher.onDidDelete` handler (extension.ts:719-729) followed by
the `provider.refresh()` it triggers: drop the run's cache entry; when
the deleted run was active, clear `activeRunId`/`selectedCallId` and all
decorations; then the tree refresh re-applies auto-select-latest over
`listing` (the directory contents after the deletion). -/
def onDidDelete (store : TraceStore) (decs : List EditorDecs) (runId : Str)
    (listing : Option (List Str)) : TraceStore × List EditorDecs :=
  let s1 := { store with
    runTraces := fun r => if r == runId then none else store.runTraces r }
  if store.activeRunId == some runId then
    let s2 := { s1 with activeRunId := none, selectedCallId := none }
    (refreshTree s2 listing, clearAllDecorations decs)
  else
    (refreshTree s1 listing, decs)

/-! ### Concrete fixtures used by witnesses and counterexamples -/

/-- A raw log line with every key absent. -/
def rawBase : RawTrace :=
  { call_id := none, function := none, op_name := none, wandb_url := none,
    source_file := none, source_line_start := none, source_line_end := none,
    timestamp_start := none, duration_s := none, inputs := none, output := none,
    error := none, git_repo_root := none, git_commit := none, git_dirty := none,
    git_snapshot_sha := none }

/-- A normalised record with every optional field empty. -/
def recBase : TraceRecord :=
  { call_id := none, function := "(unknown)".data, op_name := none,
    wandb_url := none, source_file := none, source_line_start := none,
    source_line_end := none, timestamp_start := none, duration_s := 0,
    inputs := Json.obj [], output := Json.null, error := none,
    git_repo_root := none, git_commit := none, git_dirty := false,
    git_snapshot_sha := none }

/-- The boundary record of the claim: `source_line_start = 10`,
`source_line_end = 12` in file `/a.py`. -/
def rec1012 : TraceRecord :=
  { recBase with
    call_id := some "c".data
    function := "f".data
    source_file := some "/a.py".data
    source_line_start := some 10
    source_line_end := some 12
    timestamp_start := some 1 }

/-- The clamp-case record of the claim: `source_line_start = 1`. -/
def rec1 : TraceRecord :=
  { rec1012 with
    source_line_start := some 1
    source_line_end := some 1 }

/-- Raw lines of the example log file: timestamps 1, 2, 3. -/
def rawT1 : RawTrace :=
  { rawBase with
    call_id := some "t1".data
    function := some "f".data
    timestamp_start := some 1 }

def rawT2 : RawTrace :=
  { rawBase with
    call_id := some "t2".data
    function := some "g".data
    timestamp_start := some 2 }

def rawT3 : RawTrace :=
  { rawBase with
    call_id := some "t3".data
    function := some "f".data
    timestamp_start := some 3 }

/-- A log file with 3 valid lines and 1 invalid-JSON line interspersed. -/
def exampleLog : List LogLine :=
  [.parsed rawT1, .malformed, .parsed rawT2, .parsed rawT3]

/-- Two records of the same run sharing the function name `f`. -/
def cexT1 : TraceRecord :=
  { recBase with
    call_id := some "c1".data
    function := "f".data
    timestamp_start := some 1 }

def cexT2 : TraceRecord :=
  { recBase with
    call_id := some "c2".data
    function := "f".data
    timestamp_start := some 2 }

/-- A store caching run `r` with the two same-named records. -/
def cexStore : TraceStore :=
  { activeRunId := none,
    runTraces := fun r => if r == "r".data then some [cexT1, cexT2] else none,
    selectedCallId := none, focusedFn := none,
    suppressCursorFilter := false, highlightActive := false }

/-- A store whose active run is `b_run`. -/
def delStore : TraceStore :=
  { activeRunId := some "b_run".data,
    runTraces := fun r => if r == "b_run".data then some [cexT1] else none,
    selectedCallId := some "c1".data, focusedFn := none,
    suppressCursorFilter := false, highlightActive := true }

/-- One visible editor with non-empty decorations. -/
def delDecs : List EditorDecs :=
  [{ editorId := "e1".data, highlights := [(3, 5)], gutters := [(3, 3)] }]

/-- A payload text of 1001 characters. -/
def longText : Str := List.replicate 1001 'a'

/-- A record with `source_line_start` non-null and `source_line_end`
null (violating the both-null-together contract). -/
def recPartial : TraceRecord :=
  { recBase with
    call_id := some "p".data
    function := "f".data
    source_file := some "/a.py".data
    source_line_start := some 5
    source_line_end := none }

/-- A store whose active run holds only the partially-null record. -/
def partialStore : TraceStore :=
  { activeRunId := some "r".data,
    runTraces := fun rid => if rid == "r".data then some [recPartial] else none,
    selectedCallId := none, focusedFn := none,
    suppressCursorFilter := false, highlightActive := true }

/-! ### Helper lemmas about the stable sort -/

theorem insertSorted_perm (key : α → Int) (x : α) (l : List α) :
    (insertSorted key x l).Perm (x :: l) := by
  induction l with
  | nil => simp [insertSorted]
  | cons y ys ih =>
    simp only [insertSorted]
    split
    · exact List.Perm.refl _
    · exact ((ih.cons y).trans (List.Perm.swap x y ys))

theorem sortByKey_perm (key : α → Int) (l : List α) :
    (sortByKey key l).Perm l := by
  induction l with
  | nil => simp [sortByKey]
  | cons x xs ih =>
    simpa [sortByKey] using (insertSorted_perm key x (sortByKey key xs)).trans (ih.cons x)

theorem insertSorted_pairwise (key : α → Int) (x : α) (l : List α)
    (h : l.Pairwise fun a b => key a ≤ key b) :
    (insertSorted key x l).Pairwise fun a b => key a ≤ key b := by
  induction l with
  | nil => simp [insertSorted]
  | cons y ys ih =>
    rw [List.pairwise_cons] at h
    obtain ⟨hy, hys⟩ := h
    simp only [insertSorted]
    split
    · rename_i hle
      refine List.pairwise_cons.2 ⟨?_, List.pairwise_cons.2 ⟨hy, hys⟩⟩
      intro b hb
      rcases List.mem_cons.1 hb with rfl | hb
      · exact hle
      · exact le_trans hle (hy b hb)
    · rename_i hgt
      refine List.pairwise_cons.2 ⟨?_, ih hys⟩
      intro b hb
      rcases List.mem_cons.1 ((insertSorted_perm key x ys).mem_iff.1 hb) with rfl | hb
      · exact le_of_lt (lt_of_not_le hgt)
      · exact hy b hb

theorem sortByKey_pairwise (key : α → Int) (l : List α) :
    (sortByKey key l).Pairwise fun a b => key a ≤ key b := by
  induction l with
  | nil => simp [sortByKey]
  | cons x xs ih => exact insertSorted_pairwise key x _ ih

theorem insertSorted_filter_key (key : α → Int) (k : Int) (x : α) (l : List α) :
    (insertSorted key x l).filter (fun y => decide (key y = k))
      = if key x = k then x :: l.filter (fun y => decide (key y = k))
        else l.filter fun y => decide (key y = k) := by
  induction l with
  | nil =>
    by_cases hx : key x = k <;> simp [insertSorted, List.filter, hx]
  | cons y ys ih =>
    simp only [insertSorted]
    split
    · rename_i hle
      by_cases hx : key x = k <;> by_cases hy : key y = k <;>
        simp [List.filter_cons, hx, hy]
    · rename_i hgt
      by_cases hx : key x = k <;> by_cases hy : key y = k
      · exact absurd (le_of_eq (hx.trans hy.symm)) hgt
      · simp [List.filter_cons, hx, hy, ih]
      · simp [List.filter_cons, hx, hy, ih]
      · simp [List.filter_cons, hx, hy, ih]

theorem sortByKey_filter_key (key : α → Int) (k : Int) (l : List α) :
    (sortByKey key l).filter (fun y => decide (key y = k))
      = l.filter fun y => decide (key y = k) := by
  induction l with
  | nil => simp [sortByKey]
  | cons x xs ih =>
    by_cases hx : key x = k <;>
      simp [sortByKey, insertSorted_filter_key, List.filter_cons, hx, ih]

/-! ### Claim C1 — line-correlation matching -/

/-- C1: a record matches a queried `(filePath, lineNumber)` iff its
`source_file` equals `filePath`, both `source_line_start` and
`source_line_end` are non-null, `lineNumber ≥ max 0 (start - 2)` and
`lineNumber ≤ end - 1`; in particular the record with bounds `10..12`
matches 0-based lines 8, 9, 10, 11 and not 7 or 12, and the record with
`source_line_start = 1` matches line 0 with the window clamped at 0
(no negative line matches). -/
theorem line_correlation_matching :
    (∀ (t : TraceRecord) (fp : Str) (line : Int),
      matchesLine t fp line = true ↔
        (t.source_file = some fp ∧
          ∃ s e, t.source_line_start = some s ∧ t.source_line_end = some e ∧
            max 0 (s - 2) ≤ line ∧ line ≤ e - 1))
  ∧ matchesLine rec1012 "/a.py".data 8 = true
  ∧ matchesLine rec1012 "/a.py".data 9 = true
  ∧ matchesLine rec1012 "/a.py".data 10 = true
  ∧ matchesLine rec1012 "/a.py".data 11 = true
  ∧ matchesLine rec1012 "/a.py".data 7 = false
  ∧ matchesLine rec1012 "/a.py".data 12 = false
  ∧ matchesLine rec1 "/a.py".data 0 = true
  ∧ matchesLine rec1 "/a.py".data (-1) = false := by
  refine ⟨?_, by decide, by decide, by decide, by decide, by decide, by decide,
    by decide, by decide⟩
  intro t fp line
  cases hf : t.source_file with
  | none => simp [matchesLine, hf]
  | some f =>
    cases hs : t.source_line_start with
    | none => simp [matchesLine, hf, hs]
    | some s =>
      cases he : t.source_line_end with
      | none => simp [matchesLine, hf, hs, he]
      | some e =>
        simp only [matchesLine, hf, hs, he, jsInt, Option.getD_some,
          Option.isSome_some, Bool.and_true, Bool.true_and, Bool.and_eq_true,
          beq_iff_eq, Option.some.injEq, decide_eq_true_eq, ge_iff_le]
        constructor
        · rintro ⟨⟨hfp, h1⟩, h2⟩
          exact ⟨by rw [hfp], s, e, rfl, rfl, h1, h2⟩
        · rintro ⟨hfp, s', e', hs', he', h1, h2⟩
          cases hs'
          cases he'
          exact ⟨⟨by cases hfp; rfl, h1⟩, h2⟩

/-! ### Claim C3 — loader ordering -/

/-- C3: for every log file the loader's output is sorted by
non-decreasing sort key `timestamp_start || 0`; records with equal keys
preserve their file order (stability, stated as: filtering the output by
any key value yields exactly the parsed records with that key, in file
order); and no record is mutated — the output is a permutation of the
normalised parsed records, in which a missing `timestamp_start` is still
`none`. -/
theorem loader_ordering (lines : List LogLine) :
    ((loadTracesFromFile (some lines)).Pairwise fun a b => sortKey a ≤ sortKey b)
  ∧ (∀ k : Int,
      (loadTracesFromFile (some lines)).filter (fun t => decide (sortKey t = k))
        = (parseLines lines).filter fun t => decide (sortKey t = k))
  ∧ (loadTracesFromFile (some lines)).Perm (parseLines lines) := by
  refine ⟨sortByKey_pairwise sortKey (parseLines lines), ?_, ?_⟩
  · intro k
    exact sortByKey_filter_key sortKey k (parseLines lines)
  · exact sortByKey_perm sortKey (parseLines lines)

/-! ### Claim C4 — loader error handling -/

/-- C4: a missing file or a failing read yields the empty sequence; for
any file content every malformed line is skipped and every valid line is
kept (the output is a permutation of the normalised valid lines); and
the concrete file of 3 valid lines with 1 invalid-JSON line interspersed
yields exactly those 3 records with their relative order preserved. -/
theorem loader_error_handling :
    loadTracesFromFile none = []
  ∧ (∀ lines : List LogLine,
      (loadTracesFromFile (some lines)).Perm (parseLines lines))
  ∧ loadTracesFromFile (some exampleLog)
      = [normaliseTrace rawT1, normaliseTrace rawT2, normaliseTrace rawT3] :=
  ⟨rfl, fun lines => sortByKey_perm sortKey (parseLines lines), rfl⟩

/-- Characterization of the `function` field produced by
`normaliseTrace`: the `op_name` derivation fires exactly when the raw
`function` field is falsy and `op_name` is truthy; otherwise the raw
`function` field survives, with `"(unknown)"` substituted only for a
nullish (absent) value. -/
theorem normaliseTrace_function (raw : RawTrace) :
    (normaliseTrace raw).function =
      if jsTruthy raw.function = false ∧ jsTruthy raw.op_name = true then
        deriveOpFunction (raw.op_name.getD [])
      else raw.function.getD "(unknown)".data := by
  by_cases h1 : jsTruthy raw.function = true <;>
    by_cases h2 : jsTruthy raw.op_name = true <;>
      simp [normaliseTrace, h1, h2]

/-! ### Claim C2 — function-name normalization -/

/-- C2 counterexample: a raw object whose `function` field is present
but empty (`""`) together with `op_name = "proj/op/compute_thing:abcd"`
normalises to `"compute_thing"`, not to the present `function` field
value `""` — the source tests truthiness, not presence. -/
theorem function_name_counterexample :
    (normaliseTrace
        { rawBase with
          function := some []
          op_name := some "proj/op/compute_thing:abcd".data }).function
      = "compute_thing".data
  ∧ "compute_thing".data ≠ ([] : Str) := by
  exact ⟨by decide, by decide⟩

/-- C2 (amended): `normaliseTrace` produces `function` equal to the raw
`function` field when that is present and non-empty; else, when
`op_name` is present and non-empty, equal to the last `/`-separated
segment of `op_name` with any trailing `:suffix` stripped (so
`"proj/op/compute_thing:abcd"` yields `"compute_thing"`); else
`"(unknown)"` when the `function` field is absent, while a
present-but-empty `function` field with no usable `op_name` is kept as
the empty string. -/
theorem function_name_normalization (raw : RawTrace) :
    (∀ f : Str, raw.function = some f → f ≠ [] →
        (normaliseTrace raw).function = f)
  ∧ (∀ op : Str, jsTruthy raw.function = false → raw.op_name = some op →
        op ≠ [] → (normaliseTrace raw).function = deriveOpFunction op)
  ∧ (raw.function = none → jsTruthy raw.op_name = false →
        (normaliseTrace raw).function = "(unknown)".data)
  ∧ (raw.function = some [] → jsTruthy raw.op_name = false →
        (normaliseTrace raw).function = [])
  ∧ deriveOpFunction "proj/op/compute_thing:abcd".data = "compute_thing".data := by
  refine ⟨?_, ?_, ?_, ?_, by decide⟩
  · intro f hf hne
    have ht : jsTruthy (some f) = true := by
      simpa [jsTruthy] using hne
    rw [normaliseTrace_function]
    simp [hf, ht]
  · intro op hft hop hne
    have ht : jsTruthy (some op) = true := by
      simpa [jsTruthy] using hne
    rw [normaliseTrace_function]
    simp [hft, hop, ht]
  · intro hf hop
    rw [normaliseTrace_function]
    simp [hf, hop]
  · intro hf hop
    rw [normaliseTrace_function]
    have hft : jsTruthy raw.function = false := by
      rw [hf]
      rfl
    simp [hft, hop, hf]

/-- C2 witness: the amended theorem applied to the raw object with only
`op_name = "proj/op/compute_thing:abcd"`. -/
theorem function_name_normalization_witness :
    (normaliseTrace
        { rawBase with op_name := some "proj/op/compute_thing:abcd".data }).function
      = deriveOpFunction "proj/op/compute_thing:abcd".data :=
  (function_name_normalization
      { rawBase with op_name := some "proj/op/compute_thing:abcd".data }).2.1
    "proj/op/compute_thing:abcd".data (by decide) rfl (by decide)

/-! ### Claim C10 — empty-string `function` field -/

/-- C10 counterexample: a raw object whose `function` field is `""` and
whose `op_name` is absent normalises to `""` — the empty string is
preserved by `fnName ?? '(unknown)'` (it is falsy but not nullish), not
replaced by `"(unknown)"` as the claim states. -/
theorem empty_function_counterexample :
    (normaliseTrace { rawBase with function := some [] }).function = ([] : Str)
  ∧ ([] : Str) ≠ "(unknown)".data := by
  exact ⟨by decide, by decide⟩

/-- C10 (amended): an empty-string raw `function` field is treated as
absent only for the `op_name` derivation: when `op_name` is present and
non-empty the normalised `function` is derived from it; but when
`op_name` is absent or empty the empty string is preserved verbatim —
the `"(unknown)"` placeholder is used only when the `function` field is
null or absent. -/
theorem empty_function_field (raw : RawTrace) (hf : raw.function = some []) :
    (∀ op : Str, raw.op_name = some op → op ≠ [] →
        (normaliseTrace raw).function = deriveOpFunction op)
  ∧ (jsTruthy raw.op_name = false → (normaliseTrace raw).function = []) := by
  have hft : jsTruthy raw.function = false := by
    rw [hf]
    rfl
  constructor
  · intro op hop hne
    have ht : jsTruthy (some op) = true := by
      simpa [jsTruthy] using hne
    rw [normaliseTrace_function]
    simp [hft, hop, ht]
  · intro hop
    rw [normaliseTrace_function]
    simp [hft, hop, hf]

/-- C10 witness: the amended theorem applied to the raw object with
`function = ""` and `op_name = "proj/op/compute_thing:abcd"`. -/
theorem empty_function_field_witness :
    (normaliseTrace
        { rawBase with
          function := some []
          op_name := some "proj/op/compute_thing:abcd".data }).function
      = deriveOpFunction "proj/op/compute_thing:abcd".data :=
  (empty_function_field
      { rawBase with
        function := some []
        op_name := some "proj/op/compute_thing:abcd".data } rfl).1
    "proj/op/compute_thing:abcd".data rfl (by decide)

/-! ### Claim C7 — hover truncation bound -/

/-- C7 counterexample: a serialized payload of 1001 characters renders
as `1000 + 3 = 1003` characters — the source appends the
three-character marker `'...'` after the first 1000 characters, so the
rendered payload exceeds the claimed 1001-character bound. -/
theorem hover_truncation_counterexample :
    (capText longText).length = 1003 ∧ ¬(capText longText).length ≤ 1001 := by
  have hlen : longText.length = 1001 := List.length_replicate 1001 'a'
  have h3 : ("...".data).length = 3 := rfl
  have h : (capText longText).length = 1003 := by
    simp only [capText]
    rw [if_pos (by omega), List.length_append, List.length_take, h3, hlen]
    omega
  exact ⟨h, by omega⟩

/-- C7 (amended): every payload text longer than 1000 characters is
rendered as its first 1000 characters followed by a single trailing
`'...'` marker, for a total of exactly 1003 characters (not 1001); a
text of at most 1000 characters is rendered unchanged. -/
theorem hover_truncation_bound (s : Str) (h : s.length > 1000) :
    capText s = s.take 1000 ++ "...".data
  ∧ (capText s).length = 1003
  ∧ (∀ s2 : Str, s2.length ≤ 1000 → capText s2 = s2) := by
  have h3 : ("...".data).length = 3 := rfl
  refine ⟨by simp [capText, h], ?_, ?_⟩
  · simp only [capText]
    rw [if_pos h, List.length_append, List.length_take, h3]
    omega
  · intro s2 h2
    simp only [capText]
    rw [if_neg (by omega)]

/-- C7 witness: the amended theorem applied to the 1001-character
payload. -/
theorem hover_truncation_bound_witness :
    capText longText = longText.take 1000 ++ "...".data
  ∧ (capText longText).length = 1003
  ∧ (∀ s2 : Str, s2.length ≤ 1000 → capText s2 = s2) :=
  hover_truncation_bound longText
    (by show (List.replicate 1001 'a').length > 1000
        rw [List.length_replicate]
        omega)

/-! ### Claim C8 — run label parsing -/

/-- C8 counterexample: the stem `"abcdefgh_ijklmn"` does not match
`<8 digits>_<6 digits>` yet is not shown verbatim: the source checks
only the two segment lengths, so it is formatted as
`"abcd-ef-gh ij:kl:mn"`. -/
theorem run_label_counterexample :
    parseRunLabel "abcdefgh_ijklmn".data = "abcd-ef-gh ij:kl:mn".data
  ∧ "abcd-ef-gh ij:kl:mn".data ≠ "abcdefgh_ijklmn".data := by
  exact ⟨by decide, by decide⟩

/-- C8 (amended): a stem is rendered as `YYYY-MM-DD HH:MM:SS` exactly
when splitting it on `'_'` yields a first segment of length 8 and a
second of length 6 — the characters are not required to be digits, and
further segments (a suffix) are allowed; every other stem is shown
verbatim. `"20240115_143022"` renders as `"2024-01-15 14:30:22"`. -/
theorem run_label_parsing :
    (∀ (stem date timePart : Str) (rest : List Str),
        jsSplit '_' stem = date :: timePart :: rest →
        date.length = 8 → timePart.length = 6 →
        parseRunLabel stem
          = date.take 4 ++ '-' :: (date.drop 4).take 2 ++ '-' :: date.drop 6
              ++ ' ' :: timePart.take 2 ++ ':' :: (timePart.drop 2).take 2
              ++ ':' :: timePart.drop 4)
  ∧ (∀ stem : Str,
        (∀ (date timePart : Str) (rest : List Str),
            jsSplit '_' stem = date :: timePart :: rest →
            ¬(date.length = 8 ∧ timePart.length = 6)) →
        parseRunLabel stem = stem)
  ∧ parseRunLabel "20240115_143022".data = "2024-01-15 14:30:22".data
  ∧ parseRunLabel "20240115_143022_x2".data = "2024-01-15 14:30:22".data
  ∧ parseRunLabel "run7".data = "run7".data := by
  refine ⟨?_, ?_, by decide, by decide, by decide⟩
  · intro stem date timePart rest hsplit h8 h6
    simp only [parseRunLabel, hsplit, h8, h6]
    simp
  · intro stem hno
    rcases hsplit : jsSplit '_' stem with _ | ⟨date, _ | ⟨timePart, rest⟩⟩
    · simp [parseRunLabel, hsplit]
    · simp [parseRunLabel, hsplit]
    · have hcond : (date.length == 8 && timePart.length == 6) = false := by
        have := hno date timePart rest hsplit
        by_cases h8 : date.length = 8 <;> by_cases h6 : timePart.length = 6 <;>
          simp [h8, h6] at this ⊢
      simp [parseRunLabel, hsplit, hcond]

/-- C8 witness: the amended characterization applied to the stem
`"20240115_143022"`. -/
theorem run_label_parsing_witness :
    parseRunLabel "20240115_143022".data
      = "20240115".data.take 4 ++ '-' :: ("20240115".data.drop 4).take 2
          ++ '-' :: "20240115".data.drop 6 ++ ' ' :: "143022".data.take 2
          ++ ':' :: ("143022".data.drop 2).take 2 ++ ':' :: "143022".data.drop 4 :=
  run_label_parsing.1 "20240115_143022".data "20240115".data "143022".data []
    (by decide) (by decide) (by decide)

/-! ### Claim C5 — select-call postcondition -/

/-- C5 counterexample: selecting call `c1` in a run that holds two
records sharing the function name `f` yields a flat-list output
containing both records, so the filtered output does not contain
exactly the selected call. -/
theorem select_call_counterexample :
    allTracesChildren (selectTrace cexStore "r".data cexT1 none) = [cexT1, cexT2]
  ∧ allTracesChildren (selectTrace cexStore "r".data cexT1 none) ≠ [cexT1] := by
  refine ⟨rfl, fun hcontra => ?_⟩
  have h2 : ([cexT1, cexT2] : List TraceRecord) = [cexT1] := hcontra
  simpa using congrArg List.length h2

/-- C5 (amended): after the explicit selection action, `activeRunId`,
`selectedCallId` and `focusedFn` are the call's run, id and function,
`suppressCursorFilter` is set and highlighting is enabled; and once the
run's cache resolves to some record list `ts`, the flat-list output is
fully characterized: empty when the run id is the empty string (a falsy
`activeRunId`), the whole of `ts` unfiltered when the call's function
name is the empty string (a falsy `focusedFn` skips the filter), and
otherwise `ts` filtered to the call's function name — in the common
(non-empty-name) case the output contains the selected call whenever it
is cached, but also every other record sharing its function name. -/
theorem select_call_postcondition (store : TraceStore) (runId : Str)
    (tr : TraceRecord) (disk : Option (List TraceRecord)) (ts : List TraceRecord)
    (hts : (selectTrace store runId tr disk).runTraces runId = some ts) :
    (selectTrace store runId tr disk).activeRunId = some runId
  ∧ (selectTrace store runId tr disk).selectedCallId = tr.call_id
  ∧ (selectTrace store runId tr disk).focusedFn = some tr.function
  ∧ (selectTrace store runId tr disk).suppressCursorFilter = true
  ∧ (selectTrace store runId tr disk).highlightActive = true
  ∧ allTracesChildren (selectTrace store runId tr disk)
      = (if runId = [] then []
         else if tr.function = [] then ts
         else ts.filter fun t => t.function == tr.function)
  ∧ (runId ≠ [] → tr ∈ ts →
      tr ∈ allTracesChildren (selectTrace store runId tr disk)) := by
  have hact : (selectTrace store runId tr disk).activeRunId = some runId := rfl
  have hfoc : (selectTrace store runId tr disk).focusedFn = some tr.function := rfl
  have heq : allTracesChildren (selectTrace store runId tr disk)
      = (if runId = [] then []
         else if tr.function = [] then ts
         else ts.filter fun t => t.function == tr.function) := by
    by_cases hrid : runId = []
    · subst hrid
      unfold allTracesChildren
      rw [hact]
      simp [jsTruthy]
    · have htruthy : jsTruthy (some runId) = true := by
        simpa [jsTruthy] using hrid
      by_cases hfn : tr.function = []
      · have hfalse : jsTruthy (some tr.function) = false := by
          simp [jsTruthy, hfn]
        unfold allTracesChildren
        rw [hact, hfoc, htruthy, hfalse]
        simp [hts, hrid, hfn]
      · have htruthyFn : jsTruthy (some tr.function) = true := by
          simpa [jsTruthy] using hfn
        unfold allTracesChildren
        rw [hact, hfoc, htruthy, htruthyFn]
        simp [hts, hrid, hfn]
  refine ⟨hact, rfl, hfoc, rfl, rfl, heq, fun hrid hmem => ?_⟩
  rw [heq, if_neg hrid]
  by_cases hfn : tr.function = []
  · rw [if_pos hfn]
    exact hmem
  · rw [if_neg hfn]
    exact List.mem_filter.2 ⟨hmem, by simp⟩

/-- C5 witness: the amended theorem applied to the two-record store,
whose run cache is already populated. -/
theorem select_call_postcondition_witness :
    (selectTrace cexStore "r".data cexT1 none).activeRunId = some "r".data
  ∧ (selectTrace cexStore "r".data cexT1 none).selectedCallId = cexT1.call_id
  ∧ (selectTrace cexStore "r".data cexT1 none).focusedFn = some cexT1.function
  ∧ (selectTrace cexStore "r".data cexT1 none).suppressCursorFilter = true
  ∧ (selectTrace cexStore "r".data cexT1 none).highlightActive = true
  ∧ allTracesChildren (selectTrace cexStore "r".data cexT1 none)
      = (if "r".data = ([] : Str) then []
         else if cexT1.function = [] then [cexT1, cexT2]
         else [cexT1, cexT2].filter fun t => t.function == cexT1.function)
  ∧ ("r".data ≠ ([] : Str) → cexT1 ∈ [cexT1, cexT2] →
      cexT1 ∈ allTracesChildren (selectTrace cexStore "r".data cexT1 none)) :=
  select_call_postcondition cexStore "r".data cexT1 none [cexT1, cexT2] rfl

/-! ### Claim C6 — delete of the active run -/

theorem refreshTree_selectedCallId (store : TraceStore)
    (listing : Option (List Str)) :
    (refreshTree store listing).selectedCallId = store.selectedCallId := by
  cases listing with
  | none => rfl
  | some entries =>
    rcases hfs : (sortStrings (entries.filter fun f =>
        ".jsonl".data.isSuffixOf f)).reverse with _ | ⟨f, fs⟩ <;>
      rcases hact : store.activeRunId with _ | rid <;>
        simp [refreshTree, hfs, hact]

theorem refreshTree_runTraces (store : TraceStore) (listing : Option (List Str)) :
    (refreshTree store listing).runTraces = store.runTraces := by
  cases listing with
  | none => rfl
  | some entries =>
    rcases hfs : (sortStrings (entries.filter fun f =>
        ".jsonl".data.isSuffixOf f)).reverse with _ | ⟨f, fs⟩ <;>
      rcases hact : store.activeRunId with _ | rid <;>
        simp [refreshTree, hfs, hact]

theorem refreshTree_activeRunId_of_none (store : TraceStore)
    (listing : Option (List Str)) (h : store.activeRunId = none) :
    (refreshTree store listing).activeRunId =
      (match listing with
       | none => none
       | some entries =>
         match (sortStrings (entries.filter fun f =>
             ".jsonl".data.isSuffixOf f)).reverse with
         | [] => none
         | f :: _ => some (stripJsonl f)) := by
  cases listing with
  | none => exact h
  | some entries =>
    rcases hfs : (sortStrings (entries.filter fun f =>
        ".jsonl".data.isSuffixOf f)).reverse with _ | ⟨f, fs⟩ <;>
      simp [refreshTree, hfs, h]

/-- C6 counterexample: deleting the active run `b_run` while the runs
directory still lists `a_run.jsonl` leaves `activeRunId = some "a_run"`
— the delete handler's tree re-render re-applies the
auto-select-latest policy, so `activeRunId` is not null as claimed. -/
theorem delete_active_run_counterexample :
    (onDidDelete delStore delDecs "b_run".data
        (some ["a_run.jsonl".data])).1.activeRunId = some "a_run".data
  ∧ (onDidDelete delStore delDecs "b_run".data
        (some ["a_run.jsonl".data])).1.activeRunId ≠ none := by
  exact ⟨rfl, by decide⟩

/-- C6 (amended): after the delete handler for the active run's file
(including its tree re-render), `selectedCallId` is null, the run's
cache entry is dropped, and all decorations across visible editors are
empty; `activeRunId`, however, is null only when no `.jsonl` file
remains in the runs directory — otherwise the re-render's
auto-select-latest policy re-sets it to the lexicographically greatest
remaining stem. -/
theorem delete_active_run (store : TraceStore) (decs : List EditorDecs)
    (runId : Str) (listing : Option (List Str))
    (h : store.activeRunId = some runId) :
    (onDidDelete store decs runId listing).1.selectedCallId = none
  ∧ (onDidDelete store decs runId listing).1.runTraces runId = none
  ∧ (onDidDelete store decs runId listing).2 = clearAllDecorations decs
  ∧ (∀ e ∈ (onDidDelete store decs runId listing).2,
      e.highlights = [] ∧ e.gutters = [])
  ∧ (onDidDelete store decs runId listing).1.activeRunId =
      (match listing with
       | none => none
       | some entries =>
         match (sortStrings (entries.filter fun f =>
             ".jsonl".data.isSuffixOf f)).reverse with
         | [] => none
         | f :: _ => some (stripJsonl f)) := by
  have hbeq : (store.activeRunId == some runId) = true := by
    rw [h]
    simp
  have hdel : onDidDelete store decs runId listing
      = (refreshTree
          { store with
            runTraces := fun r => if r == runId then none else store.runTraces r
            activeRunId := none
            selectedCallId := none } listing,
         clearAllDecorations decs) := by
    unfold onDidDelete
    rw [hbeq]
    rfl
  rw [hdel]
  refine ⟨?_, ?_, rfl, ?_, ?_⟩
  · rw [refreshTree_selectedCallId]
  · rw [refreshTree_runTraces]
    simp
  · intro e he
    rcases List.mem_map.1 he with ⟨e0, _, rfl⟩
    exact ⟨rfl, rfl⟩
  · exact refreshTree_activeRunId_of_none _ listing rfl

/-- C6 witness: the amended theorem applied to the concrete active-run
store, one decorated editor, and a directory still listing
`a_run.jsonl`. -/
theorem delete_active_run_witness :
    (onDidDelete delStore delDecs "b_run".data
        (some ["a_run.jsonl".data])).1.selectedCallId = none
  ∧ (onDidDelete delStore delDecs "b_run".data
        (some ["a_run.jsonl".data])).1.runTraces "b_run".data = none
  ∧ (onDidDelete delStore delDecs "b_run".data
        (some ["a_run.jsonl".data])).2 = clearAllDecorations delDecs
  ∧ (∀ e ∈ (onDidDelete delStore delDecs "b_run".data
        (some ["a_run.jsonl".data])).2, e.highlights = [] ∧ e.gutters = [])
  ∧ (onDidDelete delStore delDecs "b_run".data
        (some ["a_run.jsonl".data])).1.activeRunId =
      (match (some ["a_run.jsonl".data] : Option (List Str)) with
       | none => none
       | some entries =>
         match (sortStrings (entries.filter fun f =>
             ".jsonl".data.isSuffixOf f)).reverse with
         | [] => none
         | f :: _ => some (stripJsonl f)) :=
  delete_active_run delStore delDecs "b_run".data (some ["a_run.jsonl".data]) rfl

/-! ### Claim C9 — tolerance of partially-null line bounds -/

theorem matchesLine_partial_null (t : TraceRecord) (fp : Str) (line : Int)
    (h : t.source_line_start = none ∨ t.source_line_end = none) :
    matchesLine t fp line = false := by
  rcases h with h | h <;> simp [matchesLine, h]

/-- C9: every engine operation consuming line bounds completes (is a
total function with a characterized result) on a record in which
exactly one of `source_line_start`/`source_line_end` is null: the
line-correlation predicate — hence the hover provider and the
cursor-selection handler — never matches such a record; the decoration
projection skips a record whose start bound is null, and for a record
whose end bound is null it emits a well-defined degenerate highlight
range ending at line `-1` (the JS `null` coerces to `0` in
`source_line_end! - 1`) together with its gutter marker. -/
theorem partial_null_tolerance :
    (∀ (t : TraceRecord) (fp : Str) (line : Int),
        t.source_line_start = none ∨ t.source_line_end = none →
        matchesLine t fp line = false)
  ∧ (∀ (t : TraceRecord) (fp : Str) (line : Int),
        t.source_line_start = none ∨ t.source_line_end = none →
        cursorFind [t] fp line = none)
  ∧ (∀ (store : TraceStore) (fp : Str) (line : Int) (t : TraceRecord),
        t ∈ hoverMatches store fp line →
        t.source_line_start ≠ none ∧ t.source_line_end ≠ none)
  ∧ (∀ (store : TraceStore) (fp rid : Str) (t : TraceRecord),
        store.activeRunId = some rid → rid ≠ [] →
        store.highlightActive = true → store.focusedFn = none →
        store.selectedCallId = none → store.runTraces rid = some [t] →
        t.source_file = some fp →
        ((t.source_line_start = none → applyToEditor store fp = ([], []))
         ∧ (∀ s : Int, t.source_line_start = some s → t.source_line_end = none →
              applyToEditor store fp
                = ([(max 0 (s - 2), -1)],
                   [(max 0 (s - 2), max 0 (s - 2))])))) := by
  refine ⟨matchesLine_partial_null, ?_, ?_, ?_⟩
  · intro t fp line h
    simp [cursorFind, List.find?, matchesLine_partial_null t fp line h]
  · intro store fp line t hmem
    unfold hoverMatches at hmem
    by_cases hact : jsTruthy store.activeRunId = true
    · rw [hact] at hmem
      simp only [Bool.not_true, Bool.false_eq_true, if_false] at hmem
      have hml := (List.mem_filter.1 hmem).2
      constructor
      · intro hs
        rw [matchesLine_partial_null t fp line (Or.inl hs)] at hml
        exact absurd hml (by simp)
      · intro he
        rw [matchesLine_partial_null t fp line (Or.inr he)] at hml
        exact absurd hml (by simp)
    · rw [Bool.not_eq_true] at hact
      rw [hact] at hmem
      simp at hmem
  · intro store fp rid t hact hrid hhl hfoc hsel hts hsf
    have htruthy : jsTruthy (some rid) = true := by
      simpa [jsTruthy] using hrid
    constructor
    · intro hs
      unfold applyToEditor
      rw [hact, htruthy, hhl]
      simp [hts, hs, hsf, hfoc, hsel, gutterRangesAux]
    · intro s hs he
      unfold applyToEditor
      rw [hact, htruthy, hhl]
      simp [hts, hs, he, hsf, hfoc, hsel, gutterRangesAux, jsInt, jsTruthy]

/-- C9 witness: the characterization applied to the store whose active
run holds only the record with `source_line_start = 5` and
`source_line_end = null`: the decoration projection yields the
degenerate highlight range `(3, -1)` and the gutter marker `(3, 3)`. -/
theorem partial_null_tolerance_witness :
    applyToEditor partialStore "/a.py".data = ([(3, -1)], [(3, 3)]) := by
  have h := (partial_null_tolerance.2.2.2 partialStore "/a.py".data "r".data
      recPartial rfl (by decide) rfl rfl rfl rfl rfl).2 5 rfl rfl
  simpa using h

end CdWeave
